import Mathlib

/-!
Verification development for the serverless-bun layer plugin
(`BunLayerPlugin` in the repository source).  The two operations with
logic are `buildLambdaLayer` (conditional download and assembly of the
Bun runtime layer archive) and `injectLambdaLayer` (mutation of the
service manifest).  External collaborators (the filesystem, `fetch`,
JSZip archives, the WHATWG `URL` class and the `just-pascal-case`
library) are modelled explicitly below, restricted to the behaviour the
plugin exercises.
-/

set_option linter.unusedVariables false

namespace SBL

/-- Model of a JavaScript exception value, as observed by the plugin's
catch clauses: whether the thrown value is an `Error` instance
(`instanceof Error`), whether it carries a `code` property
(`'code' in err`), that code, and a human-readable message. -/
structure JsError where
  isError : Bool
  hasCode : Bool
  code : String
  message : String
  deriving DecidableEq, Repr

/-- A zip entry held in an in-memory JSZip object; its data is the
entry's string content (`fileAdd` normalizes JavaScript `null` to an
empty entry before the data is ever stored, so every stored entry has
plain string content). -/
structure MemEntry where
  name : String
  dir : Bool
  data : String
  deriving DecidableEq, Repr

/-- A zip entry inside a serialized archive on disk or in a response
body: a name, a directory flag and textual content. -/
structure ZipEntry where
  name : String
  dir : Bool
  content : String
  deriving DecidableEq, Repr

/-- Bytes of a file or of a response body, as far as the plugin can
distinguish them: either they parse as a zip archive with the given
entries, or parsing fails with the recorded JavaScript error (JSZip
throws a plain `Error` without a `code` property in that case). -/
inductive FileData where
  | zip (entries : List ZipEntry)
  | raw (parseError : JsError)
  deriving DecidableEq, Repr

/-- State of one path in the filesystem: absent (`readFileSync` throws
ENOENT), unreadable for another reason (e.g. EACCES), or a regular file
with the given bytes. -/
inductive FsEntry where
  | absent
  | unreadable (e : JsError)
  | file (data : FileData)
  deriving DecidableEq, Repr

/-- The filesystem: an association list from paths to entries; paths not
listed are absent. -/
abbrev FS := List (String × FsEntry)

/-- The error `readFileSync` throws for a missing file. -/
def enoentError : JsError :=
  { isError := true, hasCode := true, code := "ENOENT",
    message := "no such file or directory" }

/-- Insert-or-overwrite in an association list, keeping the position of
an existing key (the semantics of updating a key of a JavaScript
object). -/
def alistSet {α : Type} (l : List (String × α)) (k : String) (v : α) :
    List (String × α) :=
  if l.any (fun kv => kv.1 = k) then
    l.map (fun kv => if kv.1 = k then (k, v) else kv)
  else l ++ [(k, v)]

/-- Lookup in an association list. -/
def alistGet {α : Type} (l : List (String × α)) (k : String) : Option α :=
  (l.find? (fun kv => kv.1 = k)).map (fun kv => kv.2)

/-- The entry currently at a path. -/
def fsLookup (fs : FS) (path : String) : FsEntry :=
  ((fs.find? (fun kv => kv.1 = path)).map (fun kv => kv.2)).getD .absent

/-- `readFileSync`: returns the file's bytes or throws. -/
def fsRead (fs : FS) (path : String) : Except JsError FileData :=
  match fsLookup fs path with
  | .absent => .error enoentError
  | .unreadable e => .error e
  | .file d => .ok d

/-- `writeFileSync`: replaces or creates the file at a path. -/
def fsWrite (fs : FS) (path : String) (d : FileData) : FS :=
  alistSet fs path (.file d)

/-! ## String helpers

The JavaScript string operations the plugin uses (`split`, `endsWith`,
template literals) and the fragments of the WHATWG `URL` class it
relies on are modelled on `String.data` with structural recursion, so
that every definition evaluates by kernel reduction. -/

/-- Strip `pre` from the front of `s`, if it is a prefix. -/
def stripPre (pre s : String) : Option String :=
  if s.data.take pre.data.length = pre.data then
    some (String.mk (s.data.drop pre.data.length))
  else none

/-- Auxiliary splitter: JavaScript `String.prototype.split` with a
single-character separator. -/
def splitCharAux (c : Char) : List Char → List Char → List String
  | [], acc => [String.mk acc.reverse]
  | x :: xs, acc =>
    if x = c then String.mk acc.reverse :: splitCharAux c xs []
    else splitCharAux c xs (x :: acc)

/-- JavaScript `s.split(c)` for a one-character separator. -/
def splitChar (c : Char) (s : String) : List String :=
  splitCharAux c s.data []

/-- First element of a list of strings, or the empty string
(JavaScript `arr[0]` where the array is known non-empty). -/
def headOrEmpty : List String → String
  | [] => ""
  | s :: _ => s

/-- A JavaScript string-or-null value collapsed to the string content
JSZip stores for it: `null` (and the empty string) become an empty
entry, any other string is stored verbatim. -/
def orEmpty : Option String → String
  | some s => s
  | none => ""

/-- JavaScript `s.endsWith(suffix)`. -/
def strEndsWith (s suffix : String) : Bool :=
  List.isPrefixOf suffix.data.reverse s.data.reverse

/-- ASCII lower-casing of one character. -/
def charLower (c : Char) : Char :=
  if 'A' ≤ c ∧ c ≤ 'Z' then Char.ofNat (c.toNat + 32) else c

/-- ASCII upper-casing of one character. -/
def charUpper (c : Char) : Char :=
  if 'a' ≤ c ∧ c ≤ 'z' then Char.ofNat (c.toNat - 32) else c

/-- ASCII lower-casing of a string. -/
def strToLower (s : String) : String :=
  String.mk (s.data.map charLower)

/-- Split a character list at the first occurrence of the literal
scheme separator sequence colon-slash-slash, returning the parts before
and after it. -/
def findSchemeSep : List Char → Option (List Char × List Char)
  | [] => none
  | ':' :: '/' :: '/' :: rest => some ([], rest)
  | c :: rest => (findSchemeSep rest).map (fun pr => (c :: pr.1, pr.2))

/-- Models `new URL(s).href` for the absolute `http(s)` URLs this
plugin handles: the scheme and host are lower-cased and a URL whose
path is empty gains a single slash (a query string alone also forces
the slash).  Inputs with no scheme separator, an empty scheme, or an
empty host are rejected (the constructor throws).  Percent-encoding,
default-port elision, dot-segment removal and fragments are outside
the inputs exercised here and are not modelled. -/
def urlHref (s : String) : Option String :=
  match findSchemeSep s.data with
  | none => none
  | some (schemeChars, restChars) =>
    if schemeChars = [] ∨ restChars = [] then none
    else
      match restChars.findIdx? (fun c => c == '/' || c == '?') with
      | none =>
        some (strToLower (String.mk schemeChars) ++ "://" ++
          strToLower (String.mk restChars) ++ "/")
      | some i =>
        let host := restChars.take i
        let tail := restChars.drop i
        if host = [] then none
        else
          let tail2 := if tail.head? = some '?' then '/' :: tail else tail
          some (strToLower (String.mk schemeChars) ++ "://" ++
            strToLower (String.mk host) ++ String.mk tail2)

/-- First word of a string capitalized, rest lower-cased. -/
def capitalizeWord (s : String) : String :=
  match s.data with
  | [] => ""
  | c :: cs => String.mk (charUpper c :: cs.map charLower)

/-- Models the external `just-pascal-case` library on the identifier
shapes a `layerKey` takes: separator-delimited words are capitalized
and joined.  (Hump-splitting of camelCase inputs is not modelled; the
claims depend only on this being a fixed deterministic transform.) -/
def pascalCase (s : String) : String :=
  String.join
    (((s.split (fun c => c == '-' || c == '_' || c == ' ' || c == '.')).filter
      (fun w => w != "")).map capitalizeWord)

/-! ## JSZip model

An in-memory JSZip object is a flat map of entry names to entries plus
a current root folder.  `loadAsync` parses bytes, `file(name)` reads an
entry below the root (returning nothing for directories),
`file(name, data)` inserts or overwrites, `folder(name)` descends (for
a string argument JSZip always returns the sub-object, so the
`?? archive` fallback in the source is never taken), `filter`
enumerates the entries below the root in insertion order, and
`generateAsync` serializes the entries below the root with their names
relativized.  `file(name, data)` with `data = null` (which the plugin
produces when the ETag header is absent, through the type-level
non-null assertion) hits JSZip's empty-data branch
(`isCompressedEmpty || o.dir || !data || data.length === 0`), which
normalizes the data to an empty STORE entry before content
preparation; serialization of string entries therefore always
succeeds. -/

/-- An in-memory JSZip object. -/
structure Zip where
  root : String
  entries : List MemEntry
  deriving DecidableEq, Repr

/-- `JSZip.loadAsync`: parse bytes into an archive rooted at the top. -/
def zipLoad : FileData → Except JsError Zip
  | .zip es => .ok ⟨"", es.map (fun e => ⟨e.name, e.dir, e.content⟩)⟩
  | .raw err => .error err

/-- `archive.file(name)`: the non-directory entry at `root ++ name`. -/
def Zip.fileGet (z : Zip) (name : String) : Option MemEntry :=
  z.entries.find? (fun e => e.name = z.root ++ name && !e.dir)

/-- `archive.file(name, data)`: insert or overwrite the entry at
`root ++ name` as a non-directory entry.  The data argument is a
JavaScript string or `null`; JSZip's empty-data branch normalizes
`null` to an empty entry, so the stored content is the string itself
or the empty string. -/
def Zip.fileAdd (z : Zip) (name : String) (data : Option String) : Zip :=
  if z.entries.any (fun e => e.name = z.root ++ name) then
    ⟨z.root, z.entries.map (fun e =>
      if e.name = z.root ++ name then ⟨z.root ++ name, false, orEmpty data⟩ else e)⟩
  else ⟨z.root, z.entries ++ [⟨z.root ++ name, false, orEmpty data⟩]⟩

/-- `archive.folder(name)`: descend into a sub-folder. -/
def Zip.folder (z : Zip) (name : String) : Zip :=
  ⟨z.root ++ name ++ "/", z.entries⟩

/-- The entries below the current root, with names relativized; the
root itself (empty relative name) is excluded, as in JSZip's
`forEach`. -/
def Zip.included (z : Zip) : List MemEntry :=
  z.entries.filterMap (fun e =>
    match stripPre z.root e.name with
    | some r => if r = "" then none else some { e with name := r }
    | none => none)

/-- `archive.filter(p)[0]`: the first entry below the root satisfying
the predicate.  The predicate receives the entry with its absolute
name, as JSZip passes the file object itself. -/
def Zip.filterFirst (z : Zip) (p : MemEntry → Bool) : Option MemEntry :=
  (z.entries.filter (fun e =>
    (match stripPre z.root e.name with
     | some r => r != ""
     | none => false) && p e)).head?

/-- `archive.generateAsync`: serialize the entries below the root with
relativized names.  Every stored entry holds plain string content
(see `Zip.fileAdd`), so serialization itself always succeeds. -/
def Zip.generate (z : Zip) : List ZipEntry :=
  z.included.map (fun e => ⟨e.name, e.dir, e.data⟩)

/-! ## Fetch model -/

/-- An outbound HTTP request as the plugin issues it: the URL and the
optional `If-None-Match` header (the constant `User-Agent` header is
elided).  -/
structure Request where
  url : String
  ifNoneMatch : Option String
  deriving DecidableEq, Repr

/-- An HTTP response: status, optional `ETag` header, the body as bytes
(`arrayBuffer`) and the body as text (`text`). -/
structure Response where
  status : Nat
  etag : Option String
  bodyData : FileData
  bodyText : String
  deriving DecidableEq, Repr

/-- `response.ok`: status in the 2xx range. -/
def Response.ok (r : Response) : Bool :=
  decide (200 ≤ r.status) && decide (r.status ≤ 299)

/-- The network: a deterministic map from requests to responses. -/
structure FetchEnv where
  respond : Request → Response

/-! ## The layer builder (`BunLayerPlugin.buildLambdaLayer`) -/

/-- The sentinel file name holding the validation tag
(`ETAG_FILE` in the source). -/
def ETAG_FILE : String := ".etag.txt"

/-- The condition under which the catch clause of `extractETag`
rethrows: `err instanceof Error && 'code' in err && err.code !==
'ENOENT'`. -/
def rethrowETagError (e : JsError) : Bool :=
  e.isError && e.hasCode && e.code != "ENOENT"

/-- `BunLayerPlugin.extractETag` (source lines 216-227): read the
archive at `output`, parse it, and return the content of the sentinel
entry; errors thrown while reading or parsing are swallowed unless
they are `Error`s carrying a `code` property other than ENOENT. -/
def extractETag (fs : FS) (output : String) : Except JsError (Option String) :=
  match fsRead fs output with
  | .error e => if rethrowETagError e then .error e else .ok none
  | .ok content =>
    match zipLoad content with
    | .error e => if rethrowETagError e then .error e else .ok none
    | .ok archive => .ok ((archive.fileGet ETAG_FILE).map (fun en => en.data))

/-- JavaScript truthiness of a possibly-absent string: `undefined` and
the empty string are falsy. -/
def strTruthyOpt : Option String → Bool
  | none => false
  | some s => s != ""

/-- The `If-None-Match` header value the build sends: the extracted tag
when it is truthy (`...(oldETag && { 'If-None-Match': oldETag })`),
otherwise no header. -/
def condTag (oldETag : Option String) : Option String :=
  if strTruthyOpt oldETag then oldETag else none

/-- The synthesized download endpoint (the template literal at source
line 251). -/
def defaultBunURL (release arch : String) : String :=
  "https://bun.sh/download/" ++ release ++ "/linux/" ++ arch ++ "?avx2=true"

/-- The canonical source location of a supplementary file (source line
312). -/
def augmentUrl (filename : String) : String :=
  "https://raw.githubusercontent.com/oven-sh/bun/main/packages/bun-lambda/" ++ filename

/-- The first supplementary filename. -/
def bootName : String := "bootstrap"

/-- The second supplementary filename. -/
def rtName : String := "runtime.ts"

/-- The two supplementary filenames fetched in the augmentation loop. -/
def augmentNames : List String := [bootName, rtName]

/-- The failure taxonomy of the build, one constructor per throw site
of `buildLambdaLayer` (plus the `URL` constructor throwing on an
invalid string). -/
inductive BuildError where
  | cacheReadError (cause : JsError)
  | invalidURLError
  | fetchError (reason : String)
  | unpackError (cause : JsError)
  | executableNotFoundError
  | augmentationFetchError (filename : String) (reason : String)
  | persistError (cause : JsError)
  deriving DecidableEq, Repr

/-- Everything observable about one run of the build: its outcome, the
filesystem afterwards, and the requests issued in order. -/
structure BuildResult where
  result : Except BuildError Unit
  fs : FS
  requests : List Request
  deriving Repr

/-- The predicate locating the executable inside the downloaded
archive (source line 304): a non-directory entry whose name ends in
the executable's name. -/
def bunEntryP (e : MemEntry) : Bool :=
  !e.dir && strEndsWith e.name ("bun")

/-- The augmentation loop (source lines 311-329): fetch each
supplementary file and insert its text below the current root; a
non-2xx response aborts with the filename and the response body. -/
def augmentFiles (env : FetchEnv) : Zip → List String →
    Except (String × String) Zip × List Request
  | z, [] => (.ok z, [])
  | z, f :: rest =>
    let req : Request := ⟨augmentUrl f, none⟩
    let resp := env.respond req
    if resp.ok then
      let out := augmentFiles env (z.fileAdd f (some resp.bodyText)) rest
      (out.1, req :: out.2)
    else (.error (f, resp.bodyText), [req])

/-- Behaviour of the disk on writes.  `writeFails path` is `none` when
`writeFileSync` to that path succeeds; otherwise it is the error the
call throws together with the bytes the interrupted call left at the
path — `writeFileSync` truncates and then writes, so a mid-write
failure (e.g. ENOSPC) leaves a partially written file, not the prior
content. -/
structure Disk where
  writeFails : String → Option (JsError × FileData)

/-- The final stage of the build (source lines 337-349): serialize the
archive and write it to `output`.  The catch wraps both
`generateAsync` and `writeFileSync`; serialization of string entries
cannot fail (see `Zip.generate`), so the failure source modelled here
is the non-atomic write, surfacing as the `PersistError`-kind failure
with whatever partial bytes the interrupted write left behind. -/
def finishBuild (disk : Disk) (fs : FS) (output : String) (z : Zip)
    (reqs : List Request) : BuildResult :=
  match disk.writeFails output with
  | some fe => ⟨.error (.persistError fe.1), fsWrite fs output fe.2, reqs⟩
  | none => ⟨.ok (), fsWrite fs output (.zip z.generate), reqs⟩

/-- The part of `buildLambdaLayer` after the cache probe and URL
resolution (source lines 262-356): short-circuit on 304, reject non-2xx,
unpack, locate the executable, descend into its root folder, fetch the
two supplementary files, stamp the tag from the response (`newETag`),
serialize and persist. -/
def buildAfterProbe (env : FetchEnv) (disk : Disk) (fs : FS) (output : String)
    (req : Request) (resp : Response) : BuildResult :=
  if resp.status = 304 then ⟨.ok (), fs, [req]⟩
  else if resp.ok = false then ⟨.error (.fetchError resp.bodyText), fs, [req]⟩
  else
    match zipLoad resp.bodyData with
    | .error cause => ⟨.error (.unpackError cause), fs, [req]⟩
    | .ok archive0 =>
      match archive0.filterFirst bunEntryP with
      | none => ⟨.error .executableNotFoundError, fs, [req]⟩
      | some bun =>
        match augmentFiles env
          (archive0.folder (headOrEmpty (splitChar '/' bun.name))) augmentNames with
        | (.error fr, areqs) =>
          ⟨.error (.augmentationFetchError fr.1 fr.2), fs, req :: areqs⟩
        | (.ok archive2, areqs) =>
          finishBuild disk fs output (archive2.fileAdd ETAG_FILE resp.etag)
            (req :: areqs)

/-- `BunLayerPlugin.buildLambdaLayer` (source lines 230-356): probe the
cache, resolve the URL, issue the conditional fetch and hand the
response to `buildAfterProbe`. -/
def buildLambdaLayer (env : FetchEnv) (disk : Disk) (fs : FS) (release arch : String)
    (url : Option String) (output : String) : BuildResult :=
  match extractETag fs output with
  | .error cause => ⟨.error (.cacheReadError cause), fs, []⟩
  | .ok oldETag =>
    match urlHref (url.getD (defaultBunURL release arch)) with
    | none => ⟨.error .invalidURLError, fs, []⟩
    | some href =>
      buildAfterProbe env disk fs output ⟨href, condTag oldETag⟩
        (env.respond ⟨href, condTag oldETag⟩)

/-! ## The layer injector (`BunLayerPlugin.injectLambdaLayer`) -/

/-- A layer reference appended to a function's `layers` sequence
(`{ Ref: ... }`). -/
structure LayerRef where
  ref : String
  deriving DecidableEq, Repr

/-- A function declaration in the manifest, restricted to the fields
the injector touches.  The optional opt-out flag is modelled by its
truthiness. -/
structure SFunction where
  omitBunLayer : Bool
  runtime : Option String
  architecture : Option String
  layers : List LayerRef
  deriving DecidableEq, Repr

/-- The layer definition the injector registers. -/
structure LayerDef where
  artifact : String
  name : String
  description : String
  compatibleRuntimes : List String
  compatibleArchitectures : List String
  licenseInfo : String
  allowedAccounts : Option (List String)
  deriving DecidableEq, Repr

/-- The service manifest, restricted to what the injector reads and
writes; `layers` is insertion-ordered, as a JavaScript object. -/
structure ServiceManifest where
  serviceName : String
  providerRuntime : Option String
  providerArchitecture : Option String
  layers : List (String × LayerDef)
  functions : List SFunction
  deriving DecidableEq, Repr

/-- The fixed compatible-runtime set (source line 367). -/
def compatibleRuntimesList : List String := ["provided.al2", "provided"]

/-- The binary architecture mapping (source line 368):
`arch === 'x64' ? 'x86_64' : 'arm64'`. -/
def mappedArchitecture (arch : String) : String :=
  if arch = "x64" then "x86_64" else "arm64"

/-- The fixed layer description string. -/
def bunDescription : String :=
  "Bun is an incredibly fast JavaScript runtime, bundler, transpiler, and package manager."

/-- The layer definition registered under `layerKey` (source lines
372-383). -/
def bunLayerDef (svc : ServiceManifest) (arch output layerKey : String)
    (isPublic : Bool) : LayerDef :=
  { artifact := output
    name := svc.serviceName ++ "-" ++ layerKey
    description := bunDescription
    compatibleRuntimes := compatibleRuntimesList
    compatibleArchitectures := [mappedArchitecture arch]
    licenseInfo := "MIT"
    allowedAccounts := if isPublic then some [("*" : String)] else none }

/-- The name of the reference appended to compatible functions (source
line 412). -/
def layerRefName (layerKey : String) : String :=
  pascalCase layerKey ++ "LambdaLayer"

/-- The filter predicate of the injector (source lines 389-406): skip
on the opt-out flag; resolve runtime and architecture with the
provider-level fallback; skip when either is falsy (absent or empty);
otherwise require membership in both compatibility sets. -/
def isTargetFunction (svc : ServiceManifest) (arch : String) (f : SFunction) :
    Bool :=
  if f.omitBunLayer then false
  else
    match f.runtime.orElse (fun _ => svc.providerRuntime),
      f.architecture.orElse (fun _ => svc.providerArchitecture) with
    | some r, some a =>
      if r = "" ∨ a = "" then false
      else compatibleRuntimesList.contains r &&
        [mappedArchitecture arch].contains a
    | _, _ => false

/-- `BunLayerPlugin.injectLambdaLayer` (source lines 359-418): register
the layer definition under `layerKey` (insert-or-overwrite), then
append a layer reference to every function passing the filter.  The
provider fields the filter reads are untouched by the layer
registration. -/
def injectLambdaLayer (svc : ServiceManifest) (arch output layerKey : String)
    (isPublic : Bool) : ServiceManifest :=
  let svc1 := { svc with
    layers := alistSet svc.layers layerKey (bunLayerDef svc arch output layerKey isPublic) }
  { svc1 with
    functions := svc1.functions.map (fun f =>
      if isTargetFunction svc arch f then
        { f with layers := f.layers ++ [⟨layerRefName layerKey⟩] }
      else f) }

/-! ## Generic lemmas -/

instance {e a : Type} [DecidableEq e] [DecidableEq a] : DecidableEq (Except e a)
  | .ok x, .ok y =>
    if h : x = y then .isTrue (by rw [h])
    else .isFalse (by intro hh; cases hh; exact h rfl)
  | .ok x, .error y => .isFalse (by intro hh; cases hh)
  | .error x, .ok y => .isFalse (by intro hh; cases hh)
  | .error x, .error y =>
    if h : x = y then .isTrue (by rw [h])
    else .isFalse (by intro hh; cases hh; exact h rfl)

lemma find_map_overwrite {α : Type} (l : List (String × α)) (k : String) (v : α)
    (h : l.any (fun kv => kv.1 = k) = true) :
    (l.map (fun kv => if kv.1 = k then (k, v) else kv)).find?
      (fun kv => kv.1 = k) = some (k, v) := by
  induction l with
  | nil => simp at h
  | cons x t ih =>
    by_cases hx : x.1 = k
    · simp [List.find?_cons, hx]
    · have ht : t.any (fun kv => kv.1 = k) = true := by
        simpa [List.any_cons, hx] using h
      simpa [List.find?_cons, hx] using ih ht

lemma find_append_of_none {α : Type} (p : α → Bool) (l₁ l₂ : List α)
    (h : l₁.any p = false) : (l₁ ++ l₂).find? p = l₂.find? p := by
  induction l₁ with
  | nil => rfl
  | cons x t ih =>
    simp only [List.any_cons, Bool.or_eq_false_iff] at h
    simpa [List.find?_cons, h.1] using ih h.2

lemma find_alistSet {α : Type} (l : List (String × α)) (k : String) (v : α) :
    (alistSet l k v).find? (fun kv => kv.1 = k) = some (k, v) := by
  unfold alistSet
  by_cases h : l.any (fun kv => kv.1 = k) = true
  · rw [if_pos h]; exact find_map_overwrite l k v h
  · rw [if_neg h, find_append_of_none _ _ _ ((Bool.not_eq_true _).mp h)]
    simp [List.find?_cons]

lemma alistGet_alistSet {α : Type} (l : List (String × α)) (k : String) (v : α) :
    alistGet (alistSet l k v) k = some v := by
  simp [alistGet, find_alistSet]

lemma fsRead_fsWrite (fs : FS) (path : String) (d : FileData) :
    fsRead (fsWrite fs path d) path = .ok d := by
  simp [fsRead, fsWrite, fsLookup, find_alistSet]

lemma map_fst_overwrite {α : Type} (l : List (String × α)) (k : String) (v : α) :
    (l.map (fun kv => if kv.1 = k then (k, v) else kv)).map Prod.fst =
      l.map Prod.fst := by
  rw [List.map_map]
  apply List.map_congr_left
  intro kv _
  by_cases h : kv.1 = k <;> simp [h]

lemma any_key_iff_count_pos {α : Type} (l : List (String × α)) (k : String) :
    l.any (fun kv => kv.1 = k) = true ↔ 0 < (l.map Prod.fst).count k := by
  rw [List.any_eq_true, List.count_pos_iff]
  constructor
  · rintro ⟨x, hx, hk⟩
    simp only [decide_eq_true_eq] at hk
    exact hk ▸ List.mem_map_of_mem Prod.fst hx
  · intro h
    rcases List.mem_map.mp h with ⟨x, hx, hk⟩
    exact ⟨x, hx, by simp [hk]⟩

lemma count_key_alistSet {α : Type} (l : List (String × α)) (k : String) (v : α)
    (h : (l.map Prod.fst).count k ≤ 1) :
    ((alistSet l k v).map Prod.fst).count k = 1 := by
  unfold alistSet
  by_cases hc : l.any (fun kv => kv.1 = k) = true
  · rw [if_pos hc, map_fst_overwrite]
    have := (any_key_iff_count_pos l k).mp hc
    omega
  · rw [if_neg hc]
    have h0 : (l.map Prod.fst).count k = 0 := by
      by_contra hne
      exact hc ((any_key_iff_count_pos l k).mpr (by omega))
    simp [List.count_append, h0, List.count_cons]

lemma find_eq_of_mem_all {α : Type} (p : α → Bool) (l : List α) (v : α)
    (hmem : v ∈ l) (hall : ∀ x ∈ l, p x = true → x = v) (hv : p v = true) :
    l.find? p = some v := by
  induction l with
  | nil => cases hmem
  | cons x t ih =>
    by_cases hx : p x = true
    · have hxv : x = v := hall x (List.mem_cons_self x t) hx
      subst hxv; simp [List.find?_cons, hx]
    · have hx' : p x = false := by simpa using hx
      simp only [List.find?_cons, hx']
      rcases List.mem_cons.mp hmem with rfl | hm
      · exact absurd hv hx
      · exact ih hm (fun y hy => hall y (List.mem_cons_of_mem _ hy))

/-! ## Injection claims (C3, C5, C6) -/

/-- The inclusion condition as the specification states it (claim C3):
opt-out not set, effective runtime and architecture both resolved, the
runtime a member of the fixed compatible-runtime set and the
architecture equal to the single mapped identifier.  This definition
follows the claim's words and is compared against the source-derived
`isTargetFunction`. -/
def claimInjectCond (svc : ServiceManifest) (arch : String) (f : SFunction) : Prop :=
  f.omitBunLayer = false ∧
  ∃ r a, f.runtime.orElse (fun x => svc.providerRuntime) = some r ∧
    f.architecture.orElse (fun x => svc.providerArchitecture) = some a ∧
    r ∈ compatibleRuntimesList ∧ a = mappedArchitecture arch

lemma mappedArchitecture_ne_empty (arch : String) : mappedArchitecture arch ≠ "" := by
  unfold mappedArchitecture
  split <;> decide

lemma isTarget_iff_claim (svc : ServiceManifest) (arch : String) (f : SFunction) :
    isTargetFunction svc arch f = true ↔ claimInjectCond svc arch f := by
  unfold isTargetFunction claimInjectCond
  by_cases ho : f.omitBunLayer
  · simp [ho]
  · rcases hr : f.runtime.orElse (fun x => svc.providerRuntime) with _ | r <;>
      rcases ha : f.architecture.orElse (fun x => svc.providerArchitecture) with _ | a <;>
        simp only [ho, if_false, hr, ha, Bool.false_eq_true] <;> simp
    by_cases hre : r = "" <;> by_cases hae : a = "" <;>
      simp [hre, hae, compatibleRuntimesList]
    exact fun h => (mappedArchitecture_ne_empty arch).symm

lemma inject_functions_getElem (svc : ServiceManifest) (arch output layerKey : String)
    (isPublic : Bool) (i : Nat) (f : SFunction) (h : svc.functions[i]? = some f) :
    (injectLambdaLayer svc arch output layerKey isPublic).functions[i]? =
      some (if isTargetFunction svc arch f then
        { f with layers := f.layers ++ [⟨layerRefName layerKey⟩] } else f) := by
  show (svc.functions.map _)[i]? = _
  rw [List.getElem?_map, h]
  rfl

/-- C3: `inject` appends a layer reference to the function at index `i`
iff its opt-out flag is unset, its effective runtime and architecture
are both resolved, the runtime is in the fixed compatible-runtime set
and the architecture equals the mapped identifier; a function failing
any condition is left exactly as it was. -/
theorem c3_inject_target_iff (svc : ServiceManifest) (arch output layerKey : String)
    (isPublic : Bool) (i : Nat) (f : SFunction)
    (h : svc.functions[i]? = some f) :
    (((injectLambdaLayer svc arch output layerKey isPublic).functions[i]? =
        some { f with layers := f.layers ++ [⟨layerRefName layerKey⟩] }) ↔
      claimInjectCond svc arch f) ∧
    (¬ claimInjectCond svc arch f →
      (injectLambdaLayer svc arch output layerKey isPublic).functions[i]? = some f) := by
  have hmap := inject_functions_getElem svc arch output layerKey isPublic i f h
  constructor
  · rw [hmap]
    constructor
    · intro he
      by_contra hc
      rw [if_neg (fun ht => hc ((isTarget_iff_claim svc arch f).mp ht))] at he
      have := congrArg (fun g => (Option.getD g f).layers) he
      simp at this
    · intro hc
      rw [if_pos ((isTarget_iff_claim svc arch f).mpr hc)]
  · intro hc
    rw [hmap, if_neg (fun ht => hc ((isTarget_iff_claim svc arch f).mp ht))]

lemma isTarget_inject (svc : ServiceManifest) (arch output layerKey : String)
    (isPublic : Bool) (arch2 : String) (f : SFunction) :
    isTargetFunction (injectLambdaLayer svc arch output layerKey isPublic) arch2 f =
      isTargetFunction svc arch2 f := rfl

lemma isTarget_layers_irrelevant (svc : ServiceManifest) (arch : String)
    (f : SFunction) (L : List LayerRef) :
    isTargetFunction svc arch { f with layers := L } = isTargetFunction svc arch f := by
  cases f
  rfl

/-- C5: running `inject` twice with the same `layerKey` leaves exactly
one layer entry under that key (insert-or-overwrite, given the
JavaScript-object invariant that the input has no duplicate key), while
every compatible function's `layers` sequence keeps its prior entries
in order and gains one appended reference per call — two in total,
undeduplicated; incompatible functions are untouched. -/
theorem c5_double_inject (svc : ServiceManifest) (arch output layerKey : String)
    (isPublic : Bool) (h1 : (svc.layers.map Prod.fst).count layerKey ≤ 1) :
    (((injectLambdaLayer (injectLambdaLayer svc arch output layerKey isPublic)
        arch output layerKey isPublic).layers.map Prod.fst).count layerKey = 1) ∧
    (∀ (i : Nat) (f : SFunction), svc.functions[i]? = some f →
      (injectLambdaLayer (injectLambdaLayer svc arch output layerKey isPublic)
          arch output layerKey isPublic).functions[i]? =
        some (if isTargetFunction svc arch f then
          { f with layers :=
            f.layers ++ [⟨layerRefName layerKey⟩, ⟨layerRefName layerKey⟩] }
          else f)) := by
  constructor
  · show ((alistSet (alistSet svc.layers layerKey _) layerKey _).map Prod.fst).count _ = 1
    apply count_key_alistSet
    rw [count_key_alistSet svc.layers layerKey _ h1]
  · intro i f hf
    have h2 := inject_functions_getElem svc arch output layerKey isPublic i f hf
    have h3 := inject_functions_getElem (injectLambdaLayer svc arch output layerKey isPublic)
      arch output layerKey isPublic i
      (if isTargetFunction svc arch f then
        { f with layers := f.layers ++ [⟨layerRefName layerKey⟩] } else f) h2
    rw [h3, isTarget_inject]
    by_cases ht : isTargetFunction svc arch f
    · rw [if_pos ht, isTarget_layers_irrelevant, if_pos ht, if_pos ht]
      simp
    · rw [if_neg ht, if_neg ht, if_neg ht]

/-- C6: with `isPublic = true` the registered layer definition carries
the non-empty wildcard account grant; with `isPublic = false` the field
is structurally absent (`none`), which differs from an empty list. -/
theorem c6_public_flag (svc : ServiceManifest) (arch output layerKey : String) :
    ((alistGet (injectLambdaLayer svc arch output layerKey true).layers
        layerKey).map (fun d => d.allowedAccounts) = some (some [("*" : String)])) ∧
    (([("*" : String)] : List String) ≠ ([] : List String)) ∧
    ((alistGet (injectLambdaLayer svc arch output layerKey false).layers
        layerKey).map (fun d => d.allowedAccounts) = some none) ∧
    ((none : Option (List String)) ≠ some ([] : List String)) := by
  refine ⟨?_, by simp, ?_, by simp⟩ <;>
    simp [injectLambdaLayer, alistGet_alistSet, bunLayerDef]

/-! ## Concrete fixtures for witnesses and counterexamples -/

/-- The default release identifier. -/
def relLatest : String := "latest"

/-- The default architecture identifier. -/
def archA64 : String := "aarch64"

/-- The alternative architecture identifier. -/
def archX64 : String := "x64"

/-- The default output path. -/
def outZip : String := "./bun-lambda-layer.zip"

/-- The default layer key. -/
def keyBun : String := "bun"

/-- A function declaration compatible with the layer (runtime resolved
from the provider, architecture declared on the function). -/
def w3f : SFunction :=
  { omitBunLayer := false, runtime := none, architecture := some ("arm64"),
    layers := [] }

/-- A manifest with one compatible function. -/
def w3svc : ServiceManifest :=
  { serviceName := "svc", providerRuntime := some ("provided"),
    providerArchitecture := none, layers := [], functions := [w3f] }

theorem c3_witness :
    (w3svc.functions[0]? = some w3f) ∧
    ((((injectLambdaLayer w3svc archA64 outZip keyBun false).functions[0]? =
        some { w3f with layers := w3f.layers ++ [⟨layerRefName keyBun⟩] }) ↔
      claimInjectCond w3svc archA64 w3f) ∧
    (¬ claimInjectCond w3svc archA64 w3f →
      (injectLambdaLayer w3svc archA64 outZip keyBun false).functions[0]? =
        some w3f)) :=
  ⟨rfl, c3_inject_target_iff w3svc archA64 outZip keyBun false 0 w3f rfl⟩

theorem c5_witness :
    ((w3svc.layers.map Prod.fst).count keyBun ≤ 1) ∧
    ((((injectLambdaLayer (injectLambdaLayer w3svc archA64 outZip keyBun false)
        archA64 outZip keyBun false).layers.map Prod.fst).count keyBun = 1) ∧
    (∀ (i : Nat) (f : SFunction), w3svc.functions[i]? = some f →
      (injectLambdaLayer (injectLambdaLayer w3svc archA64 outZip keyBun false)
          archA64 outZip keyBun false).functions[i]? =
        some (if isTargetFunction w3svc archA64 f then
          { f with layers :=
            f.layers ++ [⟨layerRefName keyBun⟩, ⟨layerRefName keyBun⟩] }
          else f))) :=
  ⟨by decide, c5_double_inject w3svc archA64 outZip keyBun false (by decide)⟩

/-! ## Build claims (C1, C2, C4, C7, C8, C9, C10) -/

lemma build_fs_cases (env : FetchEnv) (disk : Disk) (fs : FS) (release arch : String)
    (url : Option String) (output : String) :
    (buildLambdaLayer env disk fs release arch url output).fs = fs ∨
    (buildLambdaLayer env disk fs release arch url output).result = .ok () ∨
    ∃ cause, (buildLambdaLayer env disk fs release arch url output).result =
      .error (.persistError cause) := by
  unfold buildLambdaLayer buildAfterProbe finishBuild
  repeat' first
    | exact Or.inl rfl
    | exact Or.inr (Or.inl rfl)
    | exact Or.inr (Or.inr ⟨_, rfl⟩)
    | split

lemma build_no_cacheRead (env : FetchEnv) (disk : Disk) (fs : FS)
    (release arch : String) (url : Option String) (output : String)
    (og : Option String)
    (hE : extractETag fs output = .ok og) (e : JsError) :
    (buildLambdaLayer env disk fs release arch url output).result ≠
      .error (.cacheReadError e) := by
  unfold buildLambdaLayer buildAfterProbe finishBuild
  rw [hE]
  repeat' first
    | (intro h; cases h)
    | split
    | simp_all

lemma build_first_request (env : FetchEnv) (disk : Disk) (fs : FS)
    (release arch : String) (url : Option String) (output : String)
    (og : Option String) (href : String)
    (hE : extractETag fs output = .ok og)
    (hU : urlHref (url.getD (defaultBunURL release arch)) = some href) :
    (buildLambdaLayer env disk fs release arch url output).requests.head? =
      some ⟨href, condTag og⟩ := by
  unfold buildLambdaLayer buildAfterProbe finishBuild
  rw [hE, hU]
  repeat' first
    | rfl
    | split
    | simp_all

lemma build_main_eq (env : FetchEnv) (disk : Disk) (fs : FS) (release arch : String)
    (url : Option String) (output : String) (og : Option String) (href : String)
    (z0 : Zip) (bun : MemEntry)
    (hE : extractETag fs output = .ok og)
    (hU : urlHref (url.getD (defaultBunURL release arch)) = some href)
    (h304 : (env.respond ⟨href, condTag og⟩).status ≠ 304)
    (hok : (env.respond ⟨href, condTag og⟩).ok = true)
    (hload : zipLoad (env.respond ⟨href, condTag og⟩).bodyData = .ok z0)
    (hbun : z0.filterFirst bunEntryP = some bun)
    (hb : (env.respond ⟨augmentUrl bootName, none⟩).ok = true)
    (hr2 : (env.respond ⟨augmentUrl rtName, none⟩).ok = true) :
    buildLambdaLayer env disk fs release arch url output =
      finishBuild disk fs output
        ((((z0.folder (headOrEmpty (splitChar '/' bun.name))).fileAdd bootName
            (some (env.respond ⟨augmentUrl bootName, none⟩).bodyText)).fileAdd
              rtName
              (some (env.respond ⟨augmentUrl rtName, none⟩).bodyText)).fileAdd
          ETAG_FILE (env.respond ⟨href, condTag og⟩).etag)
        [⟨href, condTag og⟩, ⟨augmentUrl bootName, none⟩,
          ⟨augmentUrl rtName, none⟩] := by
  unfold buildLambdaLayer
  rw [hE, hU]
  dsimp only
  unfold buildAfterProbe
  rw [if_neg h304]
  rw [hok]
  rw [if_neg (by simp)]
  rw [hload]
  dsimp only
  rw [hbun]
  dsimp only
  simp only [augmentNames, augmentFiles, hb, hr2, if_true]

/-- C4: when the cache probe yields a (truthy) prior tag and the
conditional download answers 304, `build` returns successfully, the
filesystem is untouched (the archive stays byte-identical), and the
single conditional request is the only observable effect — no
augmentation fetch and no persist happen, on any disk. -/
theorem c4_not_modified (env : FetchEnv) (disk : Disk) (fs : FS)
    (release arch : String) (url : Option String) (output : String)
    (t href : String)
    (hE : extractETag fs output = .ok (some t)) (ht : t ≠ "")
    (hU : urlHref (url.getD (defaultBunURL release arch)) = some href)
    (h304 : (env.respond ⟨href, some t⟩).status = 304) :
    buildLambdaLayer env disk fs release arch url output =
      ⟨.ok (), fs, [⟨href, some t⟩]⟩ := by
  have hc : condTag (some t) = some t := by simp [condTag, strTruthyOpt, ht]
  unfold buildLambdaLayer
  rw [hE, hU]
  dsimp only
  rw [hc]
  unfold buildAfterProbe
  rw [if_pos h304]

lemma strData_append (a b : String) : (a ++ b).data = a.data ++ b.data := rfl

lemma strMk_data (s : String) : String.mk s.data = s := rfl

lemma stripPre_append (pre s : String) : stripPre pre (pre ++ s) = some s := by
  unfold stripPre
  rw [if_pos]
  · rw [strData_append, List.drop_left]
  · rw [strData_append, List.take_left]

lemma stripPre_eq_some (pre s r : String) (h : stripPre pre s = some r) :
    s = pre ++ r := by
  unfold stripPre at h
  split at h
  case isTrue htake =>
    injection h with h1
    apply String.ext
    rw [strData_append, ← h1]
    show s.data = pre.data ++ s.data.drop pre.data.length
    conv_lhs => rw [← List.take_append_drop pre.data.length s.data]
    rw [htake]
  case isFalse => cases h

lemma fileAdd_root (z : Zip) (n : String) (d : Option String) :
    (z.fileAdd n d).root = z.root := by
  unfold Zip.fileAdd
  split <;> rfl

lemma fileAdd_mem (z : Zip) (n : String) (d : Option String) :
    (⟨z.root ++ n, false, orEmpty d⟩ : MemEntry) ∈ (z.fileAdd n d).entries := by
  unfold Zip.fileAdd
  by_cases hc : z.entries.any (fun e => e.name = z.root ++ n) = true <;>
    simp only [hc, if_true, if_false, Bool.false_eq_true]
  · rcases List.any_eq_true.mp hc with ⟨x, hx, hxn⟩
    simp only [decide_eq_true_eq] at hxn
    refine List.mem_map.mpr ⟨x, hx, ?_⟩
    rw [if_pos hxn]
  · exact List.mem_append_right _ (List.mem_singleton.mpr rfl)

lemma fileAdd_all_named (z : Zip) (n : String) (d : Option String) :
    ∀ e ∈ (z.fileAdd n d).entries, e.name = z.root ++ n →
      e = ⟨z.root ++ n, false, orEmpty d⟩ := by
  unfold Zip.fileAdd
  by_cases hc : z.entries.any (fun e => e.name = z.root ++ n) = true <;>
    simp only [hc, if_true, if_false, Bool.false_eq_true] <;> intro e he hname
  · rcases List.mem_map.mp he with ⟨x, hx, rfl⟩
    by_cases hm : x.name = z.root ++ n
    · rw [if_pos hm]
    · rw [if_neg hm] at hname
      exact absurd hname hm
  · rcases List.mem_append.mp he with h1 | h2
    · exfalso
      exact hc (List.any_eq_true.mpr ⟨e, h1, by simp [hname]⟩)
    · exact List.mem_singleton.mp h2

lemma included_mem_of_entry (z : Zip) (e : MemEntry) (r : String)
    (he : e ∈ z.entries) (hst : stripPre z.root e.name = some r) (hr : r ≠ "") :
    ({ e with name := r } : MemEntry) ∈ z.included := by
  unfold Zip.included
  refine List.mem_filterMap.mpr ⟨e, he, ?_⟩
  rw [hst]
  dsimp only
  rw [if_neg hr]

lemma generate_find_stamp (z : Zip) (c : Option String) :
    (z.fileAdd ETAG_FILE c).generate.find? (fun e => e.name = ETAG_FILE) =
      some ⟨ETAG_FILE, false, orEmpty c⟩ := by
  have hroot : (z.fileAdd ETAG_FILE c).root = z.root := fileAdd_root z ETAG_FILE c
  unfold Zip.generate
  apply find_eq_of_mem_all
  · apply List.mem_map.mpr
    refine ⟨⟨ETAG_FILE, false, orEmpty c⟩, ?_, rfl⟩
    have hmem := fileAdd_mem z ETAG_FILE c
    have h2 := included_mem_of_entry (z.fileAdd ETAG_FILE c)
      ⟨z.root ++ ETAG_FILE, false, orEmpty c⟩ ETAG_FILE hmem ?_ (by decide)
    · exact h2
    · rw [hroot]
      exact stripPre_append z.root ETAG_FILE
  · intro x hx hnm
    simp only [decide_eq_true_eq] at hnm
    rcases List.mem_map.mp hx with ⟨y, hy, rfl⟩
    rcases List.mem_filterMap.mp hy with ⟨w, hw, hmap⟩
    rcases hst : stripPre (z.fileAdd ETAG_FILE c).root w.name with _ | r <;>
      rw [hst] at hmap <;> dsimp only at hmap
    · cases hmap
    · by_cases hr0 : r = ""
      · rw [if_pos hr0] at hmap
        cases hmap
      · rw [if_neg hr0] at hmap
        injection hmap with h1
        subst h1
        have hr2 : r = ETAG_FILE := hnm
        subst hr2
        have hwname : w.name = z.root ++ ETAG_FILE := by
          have h3 := stripPre_eq_some _ _ _ hst
          rw [hroot] at h3
          exact h3
        have h4 := fileAdd_all_named z ETAG_FILE c w hw hwname
        rw [h4]
  · simp

/-- C7: when the download answers 200 with tag `t`, the body is a
valid archive containing an executable entry, both augmentation
fetches succeed, and the final write is accepted by the disk, the
archive written to `output` contains the sentinel file with content
exactly `t`. -/
theorem c7_rebuild_stamps_new_tag (env : FetchEnv) (disk : Disk) (fs : FS)
    (release arch : String) (url : Option String) (output : String)
    (og : Option String) (href t : String) (z0 : Zip) (bun : MemEntry)
    (hE : extractETag fs output = .ok og)
    (hU : urlHref (url.getD (defaultBunURL release arch)) = some href)
    (h304 : (env.respond ⟨href, condTag og⟩).status ≠ 304)
    (hok : (env.respond ⟨href, condTag og⟩).ok = true)
    (hET : (env.respond ⟨href, condTag og⟩).etag = some t)
    (hload : zipLoad (env.respond ⟨href, condTag og⟩).bodyData = .ok z0)
    (hbun : z0.filterFirst bunEntryP = some bun)
    (hb : (env.respond ⟨augmentUrl bootName, none⟩).ok = true)
    (hr2 : (env.respond ⟨augmentUrl rtName, none⟩).ok = true)
    (hdisk : disk.writeFails output = none) :
    ∃ es, (buildLambdaLayer env disk fs release arch url output).result = .ok () ∧
      fsRead (buildLambdaLayer env disk fs release arch url output).fs output =
        .ok (.zip es) ∧
      es.find? (fun e => e.name = ETAG_FILE) = some ⟨ETAG_FILE, false, t⟩ := by
  rw [build_main_eq env disk fs release arch url output og href z0 bun hE hU h304
    hok hload hbun hb hr2]
  rw [hET]
  unfold finishBuild
  rw [hdisk]
  dsimp only
  refine ⟨_, rfl, fsRead_fsWrite fs output _, ?_⟩
  exact generate_find_stamp _ (some t)

/-- C2 (amended): when a 2xx non-304 response lacks the `ETag` header,
`build` does not fail at all — the non-null assertion is type-level
only, and JSZip normalizes the stamped null tag to an empty entry —
so the run issues all three requests, completes successfully, and
writes the archive whose sentinel file is empty. -/
theorem c2_missing_tag_proceeds (env : FetchEnv) (disk : Disk) (fs : FS)
    (release arch : String) (url : Option String) (output : String)
    (og : Option String) (href : String) (z0 : Zip) (bun : MemEntry)
    (hE : extractETag fs output = .ok og)
    (hU : urlHref (url.getD (defaultBunURL release arch)) = some href)
    (h304 : (env.respond ⟨href, condTag og⟩).status ≠ 304)
    (hok : (env.respond ⟨href, condTag og⟩).ok = true)
    (hET : (env.respond ⟨href, condTag og⟩).etag = none)
    (hload : zipLoad (env.respond ⟨href, condTag og⟩).bodyData = .ok z0)
    (hbun : z0.filterFirst bunEntryP = some bun)
    (hb : (env.respond ⟨augmentUrl bootName, none⟩).ok = true)
    (hr2 : (env.respond ⟨augmentUrl rtName, none⟩).ok = true)
    (hdisk : disk.writeFails output = none) :
    ∃ es, (buildLambdaLayer env disk fs release arch url output).result = .ok () ∧
      fsRead (buildLambdaLayer env disk fs release arch url output).fs output =
        .ok (.zip es) ∧
      es.find? (fun e => e.name = ETAG_FILE) = some ⟨ETAG_FILE, false, ""⟩ ∧
      (buildLambdaLayer env disk fs release arch url output).requests =
        [⟨href, condTag og⟩, ⟨augmentUrl bootName, none⟩,
          ⟨augmentUrl rtName, none⟩] := by
  rw [build_main_eq env disk fs release arch url output og href z0 bun hE hU h304
    hok hload hbun hb hr2]
  rw [hET]
  unfold finishBuild
  rw [hdisk]
  dsimp only
  refine ⟨_, rfl, fsRead_fsWrite fs output _, ?_, rfl⟩
  exact generate_find_stamp _ none

/-- Probing the cache raises `e` while reading or while parsing the
archive at `output` (the file is present in the parsing case, so this
is never the file-does-not-exist condition when `e` is not ENOENT). -/
def probeRaises (fs : FS) (output : String) (e : JsError) : Prop :=
  fsRead fs output = .error e ∨
  (∃ d, fsRead fs output = .ok d ∧ zipLoad d = .error e)

/-- C1 (amended): when reading or parsing the existing archive raises
`e`, the build aborts with a `CacheReadError`-kind failure exactly
when `e` is an `Error` carrying a `code` property other than ENOENT;
any other failure — including a corrupt-archive parse error, which is
a plain `Error` without a `code` property — is swallowed and treated
as "no prior tag". -/
theorem c1_cache_probe_rethrow_iff (env : FetchEnv) (disk : Disk) (fs : FS)
    (release arch : String) (url : Option String) (output : String) (e : JsError)
    (h : probeRaises fs output e) :
    ((buildLambdaLayer env disk fs release arch url output).result =
        .error (.cacheReadError e) ↔ rethrowETagError e = true) ∧
    (rethrowETagError e = false → extractETag fs output = .ok none) := by
  have hext : extractETag fs output =
      if rethrowETagError e then .error e else .ok none := by
    rcases h with h | ⟨d, hd, hz⟩
    · unfold extractETag
      rw [h]
    · unfold extractETag
      rw [hd]
      dsimp only
      rw [hz]
  constructor
  · constructor
    · intro hres
      by_contra hne
      have hf : rethrowETagError e = false := by simpa using hne
      rw [hf, if_neg (by simp)] at hext
      exact build_no_cacheRead env disk fs release arch url output none hext e hres
    · intro ht
      rw [ht, if_pos rfl] at hext
      unfold buildLambdaLayer
      rw [hext]
  · intro hf
    rw [hf, if_neg (by simp)] at hext
    exact hext

/-- C9 (amended): every run of `build` that fails with an error kind
other than the persist failure leaves the filesystem — and hence any
file previously at `output` — untouched, because the only filesystem
write is the final persist step; a failing persist step itself is
excluded, since `writeFileSync` is non-atomic and its mid-write
failure leaves a partially written file (see the counterexample). -/
theorem c9_prepersist_preserves_output (env : FetchEnv) (disk : Disk) (fs : FS)
    (release arch : String) (url : Option String) (output : String)
    (e : BuildError)
    (h : (buildLambdaLayer env disk fs release arch url output).result = .error e)
    (hp : ∀ cause, e ≠ .persistError cause) :
    (buildLambdaLayer env disk fs release arch url output).fs = fs := by
  rcases build_fs_cases env disk fs release arch url output with hfs | hok | ⟨cause, hpe⟩
  · exact hfs
  · rw [hok] at h
    cases h
  · rw [hpe] at h
    injection h with h2
    exact absurd h2.symm (hp cause)

/-- C10: when the output file holds a well-formed archive with no
sentinel entry (or a sentinel whose content is the empty string), the
probe does not fail, and the download request is issued without an
`If-None-Match` header. -/
theorem c10_no_sentinel_unconditional (env : FetchEnv) (disk : Disk) (fs : FS)
    (release arch : String) (url : Option String) (output : String)
    (d : FileData) (z : Zip) (href : String)
    (hread : fsRead fs output = .ok d) (hz : zipLoad d = .ok z)
    (hs : (z.fileGet ETAG_FILE).map (fun en => en.data) = none ∨
      (z.fileGet ETAG_FILE).map (fun en => en.data) = some (("") : String))
    (hU : urlHref (url.getD (defaultBunURL release arch)) = some href) :
    (∀ e2 : JsError, (buildLambdaLayer env disk fs release arch url output).result ≠
        .error (.cacheReadError e2)) ∧
    (buildLambdaLayer env disk fs release arch url output).requests.head? =
      some ⟨href, none⟩ := by
  have hext : extractETag fs output =
      .ok ((z.fileGet ETAG_FILE).map (fun en => en.data)) := by
    unfold extractETag
    rw [hread]
    dsimp only
    rw [hz]
  rcases hs with hs | hs <;> rw [hs] at hext
  · exact ⟨fun e2 => build_no_cacheRead env disk fs release arch url output none hext e2,
      by have h2 := build_first_request env disk fs release arch url output none href hext hU
         simpa [condTag, strTruthyOpt] using h2⟩
  · exact ⟨fun e2 => build_no_cacheRead env disk fs release arch url output
        (some (("") : String)) hext e2,
      by have h2 := build_first_request env disk fs release arch url output
           (some (("") : String)) href hext hU
         simpa [condTag, strTruthyOpt] using h2⟩

/-- C8 (amended): the URL fetched by `build` is the WHATWG-normalized
`href` of the caller-supplied `sourceURL` when one is given, otherwise
of the canonical endpoint string; for the released architecture values
the canonical string is its own normalization, so it is fetched
verbatim. -/
theorem c8_url_normalized (env : FetchEnv) (disk : Disk) (fs : FS)
    (release arch : String) (url : Option String) (output : String)
    (og : Option String) (href : String)
    (hE : extractETag fs output = .ok og)
    (hU : urlHref (url.getD (defaultBunURL release arch)) = some href) :
    ((buildLambdaLayer env disk fs release arch url output).requests.head? =
      some ⟨href, condTag og⟩) ∧
    (urlHref (defaultBunURL relLatest archA64) =
      some (defaultBunURL relLatest archA64)) ∧
    (urlHref (defaultBunURL relLatest archX64) =
      some (defaultBunURL relLatest archX64)) :=
  ⟨build_first_request env disk fs release arch url output og href hE hU,
    by decide, by decide⟩

/-- A JSZip parse failure: a plain `Error` without a `code` property. -/
def corruptErr : JsError :=
  { isError := true, hasCode := false, code := "",
    message := "end of central directory not found" }

/-- A permission failure thrown by `readFileSync`. -/
def eaccesErr : JsError :=
  { isError := true, hasCode := true, code := "EACCES",
    message := "permission denied" }

/-- A filesystem whose output path holds bytes that are not a valid
archive. -/
def fsCorrupt : FS := [(outZip, .file (.raw corruptErr))]

/-- A filesystem whose output path cannot be read. -/
def fsDenied : FS := [(outZip, .unreadable eaccesErr)]

/-- The body text of a failing response. -/
def notFoundText : String := "not found"

/-- A network that answers every request with 404. -/
def env404 : FetchEnv :=
  ⟨fun r =>
    { status := 404, etag := none, bodyData := .raw corruptErr,
      bodyText := notFoundText }⟩

/-- The content of the executable entry in the test archive. -/
def bunBinText : String := "BUNBINARY"

/-- A downloaded archive containing the executable under a root
folder. -/
def goodZipData : FileData :=
  .zip [⟨"bun-linux-aarch64/bun", false, bunBinText⟩]

/-- Text of the fetched bootstrap script. -/
def bootText : String := "BOOTSTRAP"

/-- Text of the fetched runtime shim. -/
def rtText : String := "RUNTIME"

/-- A network returning 200 with no `ETag` header on the main download
and 200 on the augmentation fetches. -/
def envNoTag : FetchEnv :=
  ⟨fun r =>
    if r.url = augmentUrl bootName then
      { status := 200, etag := none, bodyData := .raw corruptErr, bodyText := bootText }
    else if r.url = augmentUrl rtName then
      { status := 200, etag := none, bodyData := .raw corruptErr, bodyText := rtText }
    else { status := 200, etag := none, bodyData := goodZipData, bodyText := "" }⟩

/-- The fresh validation tag returned by the healthy network. -/
def tagNew : String := "tagNew"

/-- A healthy network: 200 with a tag and a valid archive on the main
download, 200 on the augmentation fetches. -/
def envOK : FetchEnv :=
  ⟨fun r =>
    if r.url = augmentUrl bootName then
      { status := 200, etag := none, bodyData := .raw corruptErr, bodyText := bootText }
    else if r.url = augmentUrl rtName then
      { status := 200, etag := none, bodyData := .raw corruptErr, bodyText := rtText }
    else { status := 200, etag := some tagNew, bodyData := goodZipData, bodyText := "" }⟩

/-- The archive obtained by parsing `goodZipData`. -/
def w2z0 : Zip := ⟨"", [⟨"bun-linux-aarch64/bun", false, bunBinText⟩]⟩

/-- The executable entry found inside `w2z0`. -/
def w2bun : MemEntry := ⟨"bun-linux-aarch64/bun", false, bunBinText⟩

/-- The resolved default download URL. -/
def w2href : String := defaultBunURL relLatest archA64

/-- A disk on which every write succeeds. -/
def okDisk : Disk := ⟨fun p => none⟩

/-- The error a failed write throws. -/
def enospcErr : JsError :=
  { isError := true, hasCode := true, code := "ENOSPC",
    message := "no space left on device" }

/-- The bytes an interrupted, non-atomic write leaves at the output
path: a truncated prefix of the intended archive, no longer
parseable. -/
def truncData : FileData :=
  .raw
    { isError := true, hasCode := false, code := "",
      message := "truncated archive" }

/-- A disk on which the write to the output path fails mid-way. -/
def failDisk : Disk :=
  ⟨fun p => if p = outZip then some (enospcErr, truncData) else none⟩

/-- C1 counterexample: the output file exists but holds a corrupt
archive, whose parse failure is a plain `Error` without a `code`
property; the claim requires a `CacheReadError`-kind abort, but the
run swallows the failure and proceeds to the network, failing with
`FetchError` instead. -/
theorem c1_counterexample :
    (fsRead fsCorrupt outZip = .ok (.raw corruptErr)) ∧
    (zipLoad (.raw corruptErr) = .error corruptErr) ∧
    (corruptErr.hasCode = false ∧ corruptErr.code ≠ enoentError.code) ∧
    ((buildLambdaLayer env404 okDisk fsCorrupt relLatest archA64 none outZip).result =
      .error (.fetchError notFoundText)) :=
  ⟨rfl, rfl, ⟨rfl, by decide⟩, rfl⟩

theorem c1_witness :
    probeRaises fsDenied outZip eaccesErr ∧
    (((buildLambdaLayer env404 okDisk fsDenied relLatest archA64 none outZip).result =
        .error (.cacheReadError eaccesErr) ↔ rethrowETagError eaccesErr = true) ∧
    (rethrowETagError eaccesErr = false → extractETag fsDenied outZip = .ok none)) :=
  ⟨Or.inl rfl, c1_cache_probe_rethrow_iff env404 okDisk fsDenied relLatest archA64
    none outZip eaccesErr (Or.inl rfl)⟩

/-- C2 counterexample: a 200 response without the `ETag` header does
not make `build` fail at all, let alone with a missing-tag failure:
the run issues all three requests, completes successfully, and writes
the archive whose sentinel entry is empty. -/
theorem c2_counterexample :
    ((envNoTag.respond ⟨w2href, none⟩).status = 200) ∧
    ((envNoTag.respond ⟨w2href, none⟩).etag = none) ∧
    ((buildLambdaLayer envNoTag okDisk ([] : FS) relLatest archA64 none
      outZip).result = .ok ()) ∧
    ((buildLambdaLayer envNoTag okDisk ([] : FS) relLatest archA64 none
      outZip).requests.length = 3) ∧
    (fsRead (buildLambdaLayer envNoTag okDisk ([] : FS) relLatest archA64 none
        outZip).fs outZip =
      .ok (.zip [⟨"bun", false, bunBinText⟩, ⟨bootName, false, bootText⟩,
        ⟨rtName, false, rtText⟩, ⟨ETAG_FILE, false, ""⟩])) :=
  ⟨rfl, rfl, rfl, rfl, rfl⟩

theorem c2_witness :
    (extractETag ([] : FS) outZip = .ok none) ∧
    ((envNoTag.respond ⟨w2href, condTag none⟩).etag = none) ∧
    (okDisk.writeFails outZip = none) ∧
    (∃ es, (buildLambdaLayer envNoTag okDisk ([] : FS) relLatest archA64 none
        outZip).result = .ok () ∧
      fsRead (buildLambdaLayer envNoTag okDisk ([] : FS) relLatest archA64 none
        outZip).fs outZip = .ok (.zip es) ∧
      es.find? (fun e => e.name = ETAG_FILE) = some ⟨ETAG_FILE, false, ""⟩ ∧
      (buildLambdaLayer envNoTag okDisk ([] : FS) relLatest archA64 none
        outZip).requests =
        [⟨w2href, condTag none⟩, ⟨augmentUrl bootName, none⟩,
          ⟨augmentUrl rtName, none⟩]) :=
  ⟨rfl, rfl, rfl, c2_missing_tag_proceeds envNoTag okDisk [] relLatest archA64 none
    outZip none w2href w2z0 w2bun rfl rfl (by decide) rfl rfl rfl rfl rfl rfl rfl⟩

/-- A prior tag stored in the cached archive. -/
def tagT : String := "tagT"

/-- A filesystem holding a valid archive carrying `tagT`. -/
def fs304 : FS := [(outZip, .file (.zip [⟨ETAG_FILE, false, tagT⟩]))]

/-- A network answering 304 to everything. -/
def env304 : FetchEnv :=
  ⟨fun r =>
    { status := 304, etag := none, bodyData := .raw corruptErr,
      bodyText := "" }⟩

theorem c4_witness :
    (extractETag fs304 outZip = .ok (some tagT)) ∧ (tagT ≠ "") ∧
    ((env304.respond ⟨w2href, some tagT⟩).status = 304) ∧
    (buildLambdaLayer env304 okDisk fs304 relLatest archA64 none outZip =
      ⟨.ok (), fs304, [⟨w2href, some tagT⟩]⟩) :=
  ⟨rfl, by decide, rfl, c4_not_modified env304 okDisk fs304 relLatest archA64 none
    outZip tagT w2href rfl (by decide) rfl rfl⟩

theorem c7_witness :
    (extractETag ([] : FS) outZip = .ok none) ∧
    ((envOK.respond ⟨w2href, condTag none⟩).etag = some tagNew) ∧
    (okDisk.writeFails outZip = none) ∧
    (∃ es, (buildLambdaLayer envOK okDisk ([] : FS) relLatest archA64 none
        outZip).result = .ok () ∧
      fsRead (buildLambdaLayer envOK okDisk ([] : FS) relLatest archA64 none
        outZip).fs outZip = .ok (.zip es) ∧
      es.find? (fun e => e.name = ETAG_FILE) = some ⟨ETAG_FILE, false, tagNew⟩) :=
  ⟨rfl, rfl, rfl, c7_rebuild_stamps_new_tag envOK okDisk [] relLatest archA64 none
    outZip none w2href tagNew w2z0 w2bun rfl rfl (by decide) rfl rfl rfl rfl rfl
    rfl rfl⟩

/-- C9 counterexample: on a disk where the write to the output path
fails mid-way, the build ends with the `PersistError`-kind failure —
one of its fatal error kinds — while the prior archive at the output
path has been replaced by truncated bytes, not left byte-identical. -/
theorem c9_counterexample :
    ((buildLambdaLayer envOK failDisk fs304 relLatest archA64 none outZip).result =
      .error (.persistError enospcErr)) ∧
    (fsRead fs304 outZip = .ok (.zip [⟨ETAG_FILE, false, tagT⟩])) ∧
    (fsRead (buildLambdaLayer envOK failDisk fs304 relLatest archA64 none
        outZip).fs outZip = .ok truncData) ∧
    (truncData ≠ .zip [⟨ETAG_FILE, false, tagT⟩]) :=
  ⟨rfl, rfl, rfl, by decide⟩

theorem c9_witness :
    ((buildLambdaLayer env404 okDisk fs304 relLatest archA64 none outZip).result =
      .error (.fetchError notFoundText)) ∧
    (∀ cause, BuildError.fetchError notFoundText ≠ .persistError cause) ∧
    ((buildLambdaLayer env404 okDisk fs304 relLatest archA64 none outZip).fs =
      fs304) :=
  ⟨rfl, fun cause hcc => BuildError.noConfusion hcc,
    c9_prepersist_preserves_output env404 okDisk fs304 relLatest archA64 none outZip
      (.fetchError notFoundText) rfl (fun cause hcc => BuildError.noConfusion hcc)⟩

/-- A filesystem holding a well-formed archive with no sentinel file. -/
def fsNoSentinel : FS := [(outZip, .file goodZipData)]

theorem c10_witness :
    (fsRead fsNoSentinel outZip = .ok goodZipData) ∧
    (zipLoad goodZipData = .ok w2z0) ∧
    ((w2z0.fileGet ETAG_FILE).map (fun en => en.data) = none) ∧
    ((∀ e2 : JsError,
      (buildLambdaLayer envOK okDisk fsNoSentinel relLatest archA64 none
        outZip).result ≠ .error (.cacheReadError e2)) ∧
    (buildLambdaLayer envOK okDisk fsNoSentinel relLatest archA64 none
      outZip).requests.head? = some ⟨w2href, none⟩) :=
  ⟨rfl, rfl, rfl, c10_no_sentinel_unconditional envOK okDisk fsNoSentinel relLatest
    archA64 none outZip goodZipData w2z0 w2href rfl rfl (Or.inl rfl) rfl⟩

/-- A source URL whose WHATWG normalization differs from it: its path
is empty. -/
def rawBunURL : String := "https://bun.sh"

/-- The normalized form actually fetched. -/
def normBunURL : String := "https://bun.sh/"

/-- C8 counterexample: with `sourceURL = "https://bun.sh"` the URL
actually fetched is its normalization `"https://bun.sh/"`, not the
caller-supplied string verbatim. -/
theorem c8_counterexample :
    ((buildLambdaLayer env404 okDisk ([] : FS) relLatest archA64 (some rawBunURL)
      outZip).requests = [⟨normBunURL, none⟩]) ∧
    normBunURL ≠ rawBunURL :=
  ⟨rfl, by decide⟩

theorem c8_witness :
    (extractETag ([] : FS) outZip = .ok none) ∧
    (urlHref ((none : Option String).getD (defaultBunURL relLatest archA64)) =
      some w2href) ∧
    (((buildLambdaLayer envOK okDisk ([] : FS) relLatest archA64 none
      outZip).requests.head? = some ⟨w2href, condTag none⟩) ∧
    (urlHref (defaultBunURL relLatest archA64) =
      some (defaultBunURL relLatest archA64)) ∧
    (urlHref (defaultBunURL relLatest archX64) =
      some (defaultBunURL relLatest archX64))) :=
  ⟨rfl, rfl, c8_url_normalized envOK okDisk [] relLatest archA64 none outZip none
    w2href rfl rfl⟩


end SBL
